import Mathlib

/-!
# nanorpc-http — verification of the RPC envelope protocol

A shallow embedding of `src/server.ts` and `src/index.ts` of the
`nanorpc-http` package: JSON-ish request bodies, the HMAC signature
middleware, the `POST /nanorpcs/:method` handler pipeline, and the
method-registration API, together with theorems about them.
-/

namespace NanoRPC

/-! ## JavaScript value model

Request bodies are JSON objects (parsed by `express.json()` /
`express.urlencoded`).  We model JSON values with integers in place of JS
doubles: every claim under study only involves integer-valued numbers, for
which JS number-to-string conversion agrees with decimal notation. -/

inductive JSVal where
  | str (s : String)
  | int (n : Int)
  | bool (b : Bool)
  | null
  | arr (elems : List JSVal)
  | obj (fields : List (String × JSVal))
deriving Repr

mutual

/-- JS `String(v)` conversion, as used by the template literal
`` `${key}=${value}` `` in the signature middleware: strings pass through,
numbers print in decimal, `true`/`false`/`null` by name, arrays join their
elements with `","` (with `null` rendering as the empty string inside an
array), and plain objects render as `"[object Object]"`. -/
def jsToString : JSVal → String
  | .str s => s
  | .int n => toString n
  | .bool b => if b then "true" else "false"
  | .null => "null"
  | .arr xs => String.intercalate "," (jsArrStrings xs)
  | .obj _ => "[object Object]"

def jsArrStrings : List JSVal → List String
  | [] => []
  | .null :: vs => "" :: jsArrStrings vs
  | v :: vs => jsToString v :: jsArrStrings vs

end

/-- Association lookup on a list of key/value pairs, the model of property
access / `R.toPairs` order on a JS object whose own keys are the list's
first components (JS objects have no duplicate keys). -/
def assoc (k : String) : List (String × α) → Option α
  | [] => none
  | (k', v) :: rest => if k' = k then some v else assoc k rest

/-- Characters JS `parseInt` skips as leading whitespace (ASCII part). -/
def isJsSpace (c : Char) : Bool :=
  c = ' ' ∨ c = '\t' ∨ c = '\n' ∨ c = '\r' ∨ c = '\x0b' ∨ c = '\x0c'

/-- Value of a list of decimal digits. -/
def decValue (cs : List Char) : Nat :=
  cs.foldl (fun acc c => 10 * acc + (c.toNat - 48)) 0

/-- Value of a list of hex digits. -/
def hexDigitVal (c : Char) : Nat :=
  if c.toNat ≥ 97 then c.toNat - 87
  else if c.toNat ≥ 65 then c.toNat - 55
  else c.toNat - 48

def isHexDigit (c : Char) : Bool :=
  ('0' ≤ c ∧ c ≤ '9') ∨ ('a' ≤ c ∧ c ≤ 'f') ∨ ('A' ≤ c ∧ c ≤ 'F')

def hexValue (cs : List Char) : Nat :=
  cs.foldl (fun acc c => 16 * acc + hexDigitVal c) 0

/-- JS `parseInt(s)` (radix unspecified): skip leading whitespace, read an
optional sign, then either a `0x`/`0X` hex literal or the longest prefix of
decimal digits; no digits at all gives `NaN`, modelled as `none`. -/
def parseIntJS (s : String) : Option Int :=
  let cs := s.data.dropWhile isJsSpace
  let (sign, cs₁) : Int × List Char :=
    match cs with
    | '-' :: t => (-1, t)
    | '+' :: t => (1, t)
    | _ => (1, cs)
  match cs₁ with
  | '0' :: c :: t =>
    if c = 'x' ∨ c = 'X' then
      let ds := t.takeWhile isHexDigit
      if ds.isEmpty then none else some (sign * (hexValue ds : Int))
    else
      some (sign * (decValue (('0' :: c :: t).takeWhile Char.isDigit) : Int))
  | _ =>
    let ds := cs₁.takeWhile Char.isDigit
    if ds.isEmpty then none else some (sign * (decValue ds : Int))

/-! ## `String.prototype.localeCompare`

The middleware sorts with `R.comparator((a, b) => a.localeCompare(b) < 0)`.
`localeCompare` is the locale-aware (ICU) collation.  We model the ICU
root-locale collation restricted to the character classes this development
exercises: a primary pass (symbols < digits < letters, letters compared
alphabetically ignoring case) over the whole string, then a case pass
(lowercase before uppercase) as tie-break. -/

/-- Primary collation weight of a character (by code point). -/
def primaryW (n : Nat) : Nat :=
  if 48 ≤ n ∧ n ≤ 57 then 500 + (n - 48)
  else if 65 ≤ n ∧ n ≤ 90 then 1000 + (n - 65)
  else if 97 ≤ n ∧ n ≤ 122 then 1000 + (n - 97)
  else if n < 128 then n
  else 2000 + n

/-- Case (tertiary) collation weight: uppercase after lowercase. -/
def caseW (n : Nat) : Nat := if 65 ≤ n ∧ n ≤ 90 then 1 else 0

/-- Lexicographic comparison of weight sequences. -/
def lexNat : List Nat → List Nat → Ordering
  | [], [] => .eq
  | [], _ :: _ => .lt
  | _ :: _, [] => .gt
  | a :: as, b :: bs => (compare a b).then (lexNat as bs)

def primarySeq (s : String) : List Nat := s.data.map fun c => primaryW c.toNat

def caseSeq (s : String) : List Nat := s.data.map fun c => caseW c.toNat

/-- Model of `a.localeCompare(b)` (sign only): all primary weights first,
case weights as tie-break. -/
def localeCompareM (a b : String) : Ordering :=
  (lexNat (primarySeq a) (primarySeq b)).then (lexNat (caseSeq a) (caseSeq b))

/-- `a` need not come after `b` under the comparator
`(a, b) => a.localeCompare(b) < 0` fed to `R.sort` — i.e. the sort's
"less or tie" test. -/
def localeLe (a b : String) : Bool :=
  match localeCompareM a b with
  | .gt => false
  | _ => true

/-- Stable insertion of `a` into a list (model of comparison sorting). -/
def insortBy (le : α → α → Bool) (a : α) : List α → List α
  | [] => [a]
  | b :: bs => if le a b then a :: b :: bs else b :: insortBy le a bs

/-- Comparison sort (model of `R.sort` / `Array.prototype.sort`, which is a
stable comparison sort; with the collation used here ties arise only
between equal strings, so stability is immaterial). -/
def sortBy (le : α → α → Bool) : List α → List α
  | [] => []
  | a :: as => insortBy le a (sortBy le as)

/-! ## Canonical payload (signature middleware, `server.ts` lines 42–54) -/

/-- `R.dissoc("sign", body)`: drop the `sign` field. -/
def dissocSign (body : List (String × JSVal)) : List (String × JSVal) :=
  body.filter fun kv => kv.1 ≠ "sign"

/-- `` ([key, value]) => `${key.toString()}=${value}` ``. -/
def serializePair (kv : String × JSVal) : String :=
  kv.1 ++ "=" ++ jsToString kv.2

/-- The strings the middleware sorts and joins. -/
def canonicalParams (body : List (String × JSVal)) : List String :=
  (dissocSign body).map serializePair

/-- The canonical payload of the signature middleware: serialized pairs of
all fields but `sign`, sorted with the `localeCompare` comparator, joined
with newlines. -/
def canonicalPayload (body : List (String × JSVal)) : String :=
  String.intercalate "\n" (sortBy localeLe (canonicalParams body))

/-! ## SHA-256 and HMAC-SHA256 (model of node:crypto `createHmac("sha256")`) -/

/-- 32-bit right rotation. -/
def rotr (n x : Nat) : Nat := ((x >>> n) ||| (x <<< (32 - n))) % 4294967296

/-- SHA-256 round constants. -/
def shaK : List Nat :=
  [1116352408, 1899447441, 3049323471, 3921009573, 961987163,
   1508970993, 2453635748, 2870763221, 3624381080, 310598401,
   607225278, 1426881987, 1925078388, 2162078206, 2614888103,
   3248222580, 3835390401, 4022224774, 264347078, 604807628,
   770255983, 1249150122, 1555081692, 1996064986, 2554220882,
   2821834349, 2952996808, 3210313671, 3336571891, 3584528711,
   113926993, 338241895, 666307205, 773529912, 1294757372,
   1396182291, 1695183700, 1986661051, 2177026350, 2456956037,
   2730485921, 2820302411, 3259730800, 3345764771, 3516065817,
   3600352804, 4094571909, 275423344, 430227734, 506948616,
   659060556, 883997877, 958139571, 1322822218, 1537002063,
   1747873779, 1955562222, 2024104815, 2227730452, 2361852424,
   2428436474, 2756734187, 3204031479, 3329325298]

/-- SHA-256 working state. -/
structure H8 where
  a : Nat
  b : Nat
  c : Nat
  d : Nat
  e : Nat
  f : Nat
  g : Nat
  h : Nat

def initH : H8 :=
  ⟨1779033703, 3144134277, 1013904242, 2773480762,
   1359893119, 2600822924, 528734635, 1541459225⟩

/-- Next word of the message schedule, from the words built so far. -/
def nextWord (w : List Nat) : Nat :=
  let l := w.length
  let w15 := w.getD (l - 15) 0
  let w2 := w.getD (l - 2) 0
  let w16 := w.getD (l - 16) 0
  let w7 := w.getD (l - 7) 0
  let s0 := (rotr 7 w15) ^^^ (rotr 18 w15) ^^^ (w15 >>> 3)
  let s1 := (rotr 17 w2) ^^^ (rotr 19 w2) ^^^ (w2 >>> 10)
  (w16 + s0 + w7 + s1) % 4294967296

/-- One SHA-256 compression round. -/
def compressRound (st : H8) (ki wi : Nat) : H8 :=
  let s1 := (rotr 6 st.e) ^^^ (rotr 11 st.e) ^^^ (rotr 25 st.e)
  let ch := (st.e &&& st.f) ^^^ ((st.e ^^^ 4294967295) &&& st.g)
  let t1 := (st.h + s1 + ch + ki + wi) % 4294967296
  let s0 := (rotr 2 st.a) ^^^ (rotr 13 st.a) ^^^ (rotr 22 st.a)
  let mj := (st.a &&& st.b) ^^^ (st.a &&& st.c) ^^^ (st.b &&& st.c)
  let t2 := (s0 + mj) % 4294967296
  ⟨(t1 + t2) % 4294967296, st.a, st.b, st.c, (st.d + t1) % 4294967296, st.e, st.f, st.g⟩

/-- Compress one 16-word block into the state. -/
def compressBlock (st : H8) (block : List Nat) : H8 :=
  let ws := (List.range 48).foldl (fun w _ => w ++ [nextWord w]) block
  let fin := (shaK.zip ws).foldl (fun s kw => compressRound s kw.1 kw.2) st
  ⟨(st.a + fin.a) % 4294967296, (st.b + fin.b) % 4294967296,
   (st.c + fin.c) % 4294967296, (st.d + fin.d) % 4294967296,
   (st.e + fin.e) % 4294967296, (st.f + fin.f) % 4294967296,
   (st.g + fin.g) % 4294967296, (st.h + fin.h) % 4294967296⟩

/-- Big-endian 8-byte encoding. -/
def be8 (n : Nat) : List Nat :=
  [(n >>> 56) % 256, (n >>> 48) % 256, (n >>> 40) % 256, (n >>> 32) % 256,
   (n >>> 24) % 256, (n >>> 16) % 256, (n >>> 8) % 256, n % 256]

/-- Big-endian 4-byte encoding. -/
def be4 (n : Nat) : List Nat :=
  [(n >>> 24) % 256, (n >>> 16) % 256, (n >>> 8) % 256, n % 256]

/-- SHA-256 padding: `0x80`, zeros to 56 mod 64, 8-byte big-endian bit length. -/
def padMessage (msg : List Nat) : List Nat :=
  let z := (119 - msg.length % 64) % 64
  msg ++ [128] ++ List.replicate z 0 ++ be8 (8 * msg.length)

/-- Split a byte list into 64-byte chunks (fuel-structured so the kernel
can evaluate it; the fuel bounds the chunk count). -/
def chunks64Go : Nat → List Nat → List (List Nat)
  | 0, _ => []
  | _, [] => []
  | fuel + 1, b :: rest => ((b :: rest).take 64) :: chunks64Go fuel ((b :: rest).drop 64)

/-- Split a byte list into 64-byte chunks. -/
def chunks64 (l : List Nat) : List (List Nat) := chunks64Go l.length l

/-- Group bytes into big-endian 32-bit words. -/
def words32 : List Nat → List Nat
  | a :: b :: c :: d :: rest => (((a * 256 + b) * 256 + c) * 256 + d) :: words32 rest
  | _ => []

/-- SHA-256 of a byte list. -/
def sha256Bytes (msg : List Nat) : List Nat :=
  let st := (chunks64 (padMessage msg)).foldl (fun s blk => compressBlock s (words32 blk)) initH
  be4 st.a ++ be4 st.b ++ be4 st.c ++ be4 st.d ++ be4 st.e ++ be4 st.f ++ be4 st.g ++ be4 st.h

def hexDigitChar (n : Nat) : Char :=
  Char.ofNat (if n < 10 then 48 + n else 87 + n)

/-- Lowercase hex of a byte list. -/
def hexOfBytes (bs : List Nat) : String :=
  String.mk (bs.foldr (fun b acc => hexDigitChar (b / 16) :: hexDigitChar (b % 16) :: acc) [])

/-- UTF-8 encoding of one character. -/
def utf8Char (c : Char) : List Nat :=
  let n := c.toNat
  if n < 128 then [n]
  else if n < 2048 then [192 ||| (n >>> 6), 128 ||| (n &&& 63)]
  else if n < 65536 then
    [224 ||| (n >>> 12), 128 ||| ((n >>> 6) &&& 63), 128 ||| (n &&& 63)]
  else
    [240 ||| (n >>> 18), 128 ||| ((n >>> 12) &&& 63),
     128 ||| ((n >>> 6) &&& 63), 128 ||| (n &&& 63)]

/-- UTF-8 encoding of a string (node `Buffer.from(s, "utf8")`). -/
def utf8Bytes (s : String) : List Nat :=
  s.data.foldr (fun c acc => utf8Char c ++ acc) []

/-- HMAC-SHA256 over byte lists. -/
def hmacSha256 (key msg : List Nat) : List Nat :=
  let k0 := if key.length > 64 then sha256Bytes key else key
  let k := k0 ++ List.replicate (64 - k0.length) 0
  let ipad := k.map (· ^^^ 54)
  let opad := k.map (· ^^^ 92)
  sha256Bytes (opad ++ sha256Bytes (ipad ++ msg))

/-- Hex HMAC-SHA256 of strings: model of
`crypto.createHmac("sha256", secret).update(msg).digest().toString("hex")`. -/
def hmacHex (secret msg : String) : String :=
  hexOfBytes (hmacSha256 (utf8Bytes secret) (utf8Bytes msg))

/-! ## Responses and the signature middleware (`server.ts` lines 42–81) -/

/-- Reply carried in the `data` of a success response; model of
`createNanoReply` from the external `nanorpc-validator` package at its
interface: `createNanoReply(id, code, message, result)` bundles its four
arguments. -/
structure NanoReply where
  id : String
  code : Nat
  message : String
  data : JSVal

/-- `createNanoReply` (external `nanorpc-validator`), at its interface. -/
def createNanoReply (id : String) (code : Nat) (message : String) (data : JSVal) : NanoReply :=
  ⟨id, code, message, data⟩

/-- An HTTP response the server sends: either an error body
`{ code, error: { name, message } }` with an HTTP status, or a success body
`{ code, data: reply }`. -/
inductive Response where
  | err (status : Nat) (code : Nat) (name : String) (message : String)
  | ok (status : Nat) (code : Nat) (reply : NanoReply)

def missingSignatureResp : Response := .err 400 400 "Bad Request" "Missing Signature"

def checkSignatureFailedResp : Response := .err 400 400 "Bad Request" "Check Signature Failed"

def missingIdResp : Response := .err 400 400 "Bad Request" "Missing ID"

def missingArgumentsResp : Response := .err 400 400 "Bad Request" "Missing Arguments"

def missingTimestampResp : Response := .err 400 400 "Bad Request" "Missing Timestamp"

def methodNotAllowedResp : Response := .err 405 405 "Method Not Allowed" "Missing Method"

def notFoundResp : Response := .err 404 404 "Not Found" "Page Not Found"

def expectationFailedResp (message : String) : Response :=
  .err 417 417 "Expectation Failed" message

/-- `match(req.body.sign).with(P.string, R.identity).otherwise(() => undefined)`. -/
def extractSign (body : List (String × JSVal)) : Option String :=
  match assoc "sign" body with
  | some (.str s) => some s
  | _ => none

/-- The signature the middleware recomputes:
`createHmac("sha256", secret).update(payload + "\n" + secret).digest("hex")`. -/
def expectedSignature (secret : String) (body : List (String × JSVal)) : String :=
  hmacHex secret (canonicalPayload body ++ "\n" ++ secret)

/-- The signature middleware: `some resp` means the request is rejected with
`resp`; `none` means `next()` is called. -/
def verifyGate (secret : String) (body : List (String × JSVal)) : Option Response :=
  match extractSign body with
  | none => some missingSignatureResp
  | some sign =>
    if expectedSignature secret body = sign then none
    else some checkSignatureFailedResp

/-! ## Envelope parsing and dispatch (`server.ts` lines 83–169) -/

/-- The parsed envelope `NanoRPC<string, unknown[]>`. -/
structure Rpc where
  id : String
  method : String
  arguments : List JSVal
  timestamp : Int

/-- A value a JS handler can throw: a plain string, an `Error` object
(carrying its `message`), or anything else (carrying its string form
`` `${error}` ``). -/
inductive JSErr where
  | str (s : String)
  | errObj (message : String)
  | other (stringForm : String)

/-- The `message` the catch branch extracts:
`typeof error === "string" ? error : error instanceof Error ? error.message : `${error}``. -/
def errMessage : JSErr → String
  | .str s => s
  | .errObj m => m
  | .other f => f

/-- Outcome of a promise the handler returned, as observed by `await`. -/
inductive PromiseOutcome where
  | resolved (v : JSVal)
  | rejected (e : JSErr)

/-- What calling a handler does: return a plain value, return a promise, or
throw synchronously. -/
inductive HandlerResult where
  | val (v : JSVal)
  | promise (p : PromiseOutcome)
  | raise (e : JSErr)

def Handler : Type := Rpc → HandlerResult

/-- `const result = func(rpc); const retval = isPromise(result) ? await result : result`
inside `try`/`catch`: a plain value or resolved promise yields the value, a
synchronous throw or rejected promise lands in the catch branch. -/
def runHandler (f : Handler) (rpc : Rpc) : Except JSErr JSVal :=
  match f rpc with
  | .val v => .ok v
  | .promise (.resolved v) => .ok v
  | .promise (.rejected e) => .error e
  | .raise e => .error e

/-- A schema-validation diagnostic `{ keyword, instancePath, message }` of
the external validator engine. -/
structure VErr where
  keyword : String
  instancePath : String
  message : String

/-- `` (err) => `${err.keyword}: ${err.instancePath}, ${err.message}` ``. -/
def formatVErr (e : VErr) : String :=
  e.keyword ++ ": " ++ e.instancePath ++ ", " ++ e.message

/-- A registered validator at the interface the core consumes
(`getValidator`/`validator(rpc)`/`validator.errors`): `none` means the
envelope passed, `some errs` means it failed with diagnostics `errs`. -/
def Validator : Type := Rpc → Option (List VErr)

/-- `id` coercion (`server.ts` lines 86–89): a number is stringified, a
string passes through, anything else is `undefined`. -/
def coerceId (body : List (String × JSVal)) : Option String :=
  match assoc "id" body with
  | some (.int n) => some (toString n)
  | some (.str s) => some s
  | _ => none

/-- `arguments` coercion (`server.ts` lines 98–100): only an array is
accepted. -/
def coerceArgs (body : List (String × JSVal)) : Option (List JSVal) :=
  match assoc "arguments" body with
  | some (.arr xs) => some xs
  | _ => none

/-- `timestamp` coercion (`server.ts` lines 109–112) combined with the
`isNaN` test of line 114: a number passes through, a string is fed to
`parseInt` (whose `NaN` is `parseIntJS`'s `none`), anything else is
`undefined`; `none` here covers both `R.isNil(timestamp)` and
`isNaN(timestamp)`. -/
def coerceTimestamp (body : List (String × JSVal)) : Option Int :=
  match assoc "timestamp" body with
  | some (.int n) => some n
  | some (.str s) => parseIntJS s
  | _ => none

/-- `this.validators.getValidator(method)` followed by `validator(rpc)`:
`none` when there is no validator for the method or it accepts. -/
def validatorCheck (validators : List (String × Validator)) (rpc : Rpc) :
    Option (List VErr) :=
  match assoc rpc.method validators with
  | some validator => validator rpc
  | none => none

/-- Method lookup and handler invocation (`server.ts` lines 141–168). -/
def dispatch (methods : List (String × Handler)) (rpc : Rpc) : Response :=
  match assoc rpc.method methods with
  | none => methodNotAllowedResp
  | some func =>
    match runHandler func rpc with
    | .ok retval => .ok 200 200 (createNanoReply rpc.id 0 "OK" retval)
    | .error e => expectationFailedResp (errMessage e)

/-- The tail of the POST handler after the three field coercions succeeded:
schema validation, then method lookup and dispatch. -/
def afterTimestamp (validators : List (String × Validator))
    (methods : List (String × Handler)) (method : String) (id : String)
    (args : List JSVal) (timestamp : Int) : Response :=
  let rpc : Rpc := ⟨id, method, args, timestamp⟩
  match validatorCheck validators rpc with
  | some errs =>
    .err 406 406 "Not Acceptable" (String.intercalate "\n" (errs.map formatVErr))
  | none => dispatch methods rpc

/-- The `POST /nanorpcs/:method` handler (`server.ts` lines 83–169), after
the signature middleware has passed. -/
def handlePost (validators : List (String × Validator))
    (methods : List (String × Handler)) (method : String)
    (body : List (String × JSVal)) : Response :=
  match coerceId body with
  | none => missingIdResp
  | some id =>
    match coerceArgs body with
    | none => missingArgumentsResp
    | some args =>
      match coerceTimestamp body with
      | none => missingTimestampResp
      | some timestamp => afterTimestamp validators methods method id args timestamp

/-- A routed request: the only route is `POST /nanorpcs/:method`; everything
else falls through to the 404 handler. -/
inductive Route where
  | postNanorpcs (method : String)
  | other

/-- The whole express app: signature middleware first (on every path), then
the POST route or the 404 catch-all. -/
def serve (secret : String) (validators : List (String × Validator))
    (methods : List (String × Handler)) (route : Route)
    (body : List (String × JSVal)) : Response :=
  match verifyGate secret body with
  | some resp => resp
  | none =>
    match route with
    | .postNanorpcs method => handlePost validators methods method body
    | .other => notFoundResp

/-! ## Method registration (`index.ts`, `NanoRPCServer.on`) -/

/-- `NanoRPCErrCode.DuplicateMethod`. -/
def DuplicateMethod : Int := -1

/-- The wrapper `on` installs around the user function (the user function
receives the envelope's argument list). -/
def wrapHandler (func : List JSVal → HandlerResult) : Handler :=
  fun rpc => func rpc.arguments

/-- `NanoRPCServer.on(method, func)`: throws a `NanoRPCError` with code
`DuplicateMethod` when the name is taken, otherwise stores the wrapped
handler. -/
def onRegister (methods : List (String × Handler)) (method : String)
    (func : List JSVal → HandlerResult) :
    Except (Int × String) (List (String × Handler)) :=
  if (assoc method methods).isSome then
    .error (DuplicateMethod, method ++ " method already registered")
  else
    .ok (methods ++ [(method, wrapHandler func)])

/-! ## Spec-modelled parts

`src/index.ts` imports `createExpress` from a `server.ts` revision that is
not part of the sources at hand (only this caller is); that revision also
carries the timestamp freshness gate the spec documents.  It is modelled
here from the spec's words. -/

/-- Modelled from the spec: the HTTP 425 stale-timestamp rejection of the
`createExpress` revision of `server.ts` (missing from the sources), §4.2:
"`abs(now − timestamp) > 60000` → reject `TooEarly`/stale with HTTP 425". -/
def staleTimestampResp : Response := .err 425 425 "Too Early" "Stale Timestamp"

/-- Modelled from the spec: the POST handler of the `createExpress` revision
of `server.ts` (missing from the sources), which per §2/§4.2 runs the
freshness check `abs(now − timestamp) > 60000` after the timestamp itself
parses and before schema validation. -/
def handlePostFresh (now : Int) (validators : List (String × Validator))
    (methods : List (String × Handler)) (method : String)
    (body : List (String × JSVal)) : Response :=
  match coerceId body with
  | none => missingIdResp
  | some id =>
    match coerceArgs body with
    | none => missingArgumentsResp
    | some args =>
      match coerceTimestamp body with
      | none => missingTimestampResp
      | some timestamp =>
        if (now - timestamp).natAbs > 60000 then staleTimestampResp
        else afterTimestamp validators methods method id args timestamp

/-! ## The spec's description of the canonical payload (for refinement)

Claim C1 describes the sort as plain (non-locale-aware) string comparison;
the definitions below follow the claim's words, to be compared with the
source-derived `canonicalPayload`. -/

/-- Plain, non-locale-aware string comparison (code-unit lexicographic),
as the spec's words describe the sort. -/
def plainLe (a b : String) : Bool :=
  match lexNat (a.data.map Char.toNat) (b.data.map Char.toNat) with
  | .gt => false
  | _ => true

/-- The canonical payload as claim C1 words it: the same serialized pairs,
sorted by plain string comparison. -/
def specCanonicalPayload (body : List (String × JSVal)) : String :=
  String.intercalate "\n" (sortBy plainLe (canonicalParams body))

/-- The expected signature as claim C1 words it. -/
def specExpectedSignature (secret : String) (body : List (String × JSVal)) : String :=
  hmacHex secret (specCanonicalPayload body ++ "\n" ++ secret)

/-- The id a response carries, if any: success replies embed one in their
`data`; error bodies `{ code, error: { name, message } }` have none. -/
def replyId : Response → Option String
  | .ok _ _ reply => some reply.id
  | .err _ _ _ _ => none


/-! ### Order-theoretic facts about the `localeCompare` model -/

theorem lexNat_swap : ∀ a b : List Nat, (lexNat a b).swap = lexNat b a := by
  intro a
  induction a with
  | nil => intro b; cases b <;> rfl
  | cons x xs ih =>
    intro b
    cases b with
    | nil => rfl
    | cons y ys =>
      show (Ordering.then (compare x y) (lexNat xs ys)).swap =
        Ordering.then (compare y x) (lexNat ys xs)
      cases hc : compare x y with
      | lt =>
        have hgt : compare y x = .gt := Nat.compare_eq_gt.mpr (Nat.compare_eq_lt.mp hc)
        simp [Ordering.then, hgt, Ordering.swap]
      | eq =>
        have hxy := Nat.compare_eq_eq.mp hc
        subst hxy
        have heq : compare x x = .eq := Nat.compare_eq_eq.mpr rfl
        simp [Ordering.then, heq]
        exact ih ys
      | gt =>
        have hlt : compare y x = .lt := Nat.compare_eq_lt.mpr (Nat.compare_eq_gt.mp hc)
        simp [Ordering.then, hlt, Ordering.swap]

theorem lexNat_eq : ∀ a b : List Nat, lexNat a b = .eq → a = b := by
  intro a
  induction a with
  | nil => intro b h; cases b with
    | nil => rfl
    | cons y ys => simp [lexNat] at h
  | cons x xs ih =>
    intro b h
    cases b with
    | nil => simp [lexNat] at h
    | cons y ys =>
      simp only [lexNat] at h
      cases hc : compare x y with
      | lt => rw [hc] at h; simp [Ordering.then] at h
      | gt => rw [hc] at h; simp [Ordering.then] at h
      | eq =>
        rw [hc] at h
        simp only [Ordering.then] at h
        have hxy := Nat.compare_eq_eq.mp hc
        rw [hxy, ih ys h]

theorem lexNat_le_trans :
    ∀ a b c : List Nat, lexNat a b ≠ .gt → lexNat b c ≠ .gt → lexNat a c ≠ .gt := by
  intro a
  induction a with
  | nil => intro b c _ _; cases c <;> simp [lexNat]
  | cons x xs ih =>
    intro b c h₁ h₂
    cases b with
    | nil => simp [lexNat] at h₁
    | cons y ys =>
      cases c with
      | nil => simp [lexNat] at h₂
      | cons z zs =>
        simp only [lexNat] at h₁ h₂ ⊢
        cases hxy : compare x y with
        | gt => rw [hxy] at h₁; simp [Ordering.then] at h₁
        | lt =>
          have hxyn := Nat.compare_eq_lt.mp hxy
          cases hyz : compare y z with
          | gt => rw [hyz] at h₂; simp [Ordering.then] at h₂
          | lt =>
            have hyzn := Nat.compare_eq_lt.mp hyz
            have : compare x z = .lt := Nat.compare_eq_lt.mpr (Nat.lt_trans hxyn hyzn)
            simp [Ordering.then, this]
          | eq =>
            have hyzn := Nat.compare_eq_eq.mp hyz
            have : compare x z = .lt := Nat.compare_eq_lt.mpr (hyzn ▸ hxyn)
            simp [Ordering.then, this]
        | eq =>
          have hxyn := Nat.compare_eq_eq.mp hxy
          rw [hxy] at h₁
          simp only [Ordering.then] at h₁
          cases hyz : compare y z with
          | gt => rw [hyz] at h₂; simp [Ordering.then] at h₂
          | lt =>
            have hyzn := Nat.compare_eq_lt.mp hyz
            have : compare x z = .lt := Nat.compare_eq_lt.mpr (hxyn ▸ hyzn)
            simp [Ordering.then, this]
          | eq =>
            have hyzn := Nat.compare_eq_eq.mp hyz
            rw [hyz] at h₂
            simp only [Ordering.then] at h₂
            have : compare x z = .eq := Nat.compare_eq_eq.mpr (hxyn.trans hyzn)
            simp [Ordering.then, this]
            exact ih ys zs h₁ h₂

theorem primary_case_inj (m n : Nat) :
    primaryW m = primaryW n → caseW m = caseW n → m = n := by
  intro h₁ h₂
  simp only [primaryW, caseW] at h₁ h₂
  split_ifs at h₁ h₂ <;> omega

theorem charList_inj : ∀ l₁ l₂ : List Char,
    l₁.map (fun c => primaryW c.toNat) = l₂.map (fun c => primaryW c.toNat) →
    l₁.map (fun c => caseW c.toNat) = l₂.map (fun c => caseW c.toNat) →
    l₁ = l₂ := by
  intro l₁
  induction l₁ with
  | nil => intro l₂ h _; cases l₂ with
    | nil => rfl
    | cons c cs => simp at h
  | cons c cs ih =>
    intro l₂ h₁ h₂
    cases l₂ with
    | nil => simp at h₁
    | cons d ds =>
      simp only [List.map_cons, List.cons.injEq] at h₁ h₂
      have hn : c.toNat = d.toNat := primary_case_inj _ _ h₁.1 h₂.1
      have hc : c = d := Char.ext (UInt32.toNat.inj hn)
      rw [hc, ih ds h₁.2 h₂.2]

theorem localeCompareM_swap (a b : String) :
    (localeCompareM a b).swap = localeCompareM b a := by
  unfold localeCompareM
  rw [Ordering.swap_then, lexNat_swap, lexNat_swap]

theorem localeCompareM_eq {a b : String} (h : localeCompareM a b = .eq) : a = b := by
  unfold localeCompareM at h
  have h₁ : lexNat (primarySeq a) (primarySeq b) = .eq := by
    cases hc : lexNat (primarySeq a) (primarySeq b) <;> rw [hc] at h <;>
      simp [Ordering.then] at h ⊢
  rw [h₁] at h
  simp only [Ordering.then] at h
  have hp := lexNat_eq _ _ h₁
  have hcs := lexNat_eq _ _ h
  have hd : a.data = b.data := charList_inj _ _ hp hcs
  cases a; cases b; exact congrArg String.mk hd

theorem lexNat_ne_gt_swap {a b : List Nat} (h : lexNat a b ≠ .gt)
    (h' : lexNat b a ≠ .gt) : lexNat a b = .eq := by
  cases hab : lexNat a b with
  | eq => rfl
  | gt => exact absurd hab h
  | lt =>
    have : lexNat b a = .gt := by rw [← lexNat_swap, hab]; rfl
    exact absurd this h'

theorem lexNat_lt_of_lt_of_le {a b c : List Nat} (h₁ : lexNat a b = .lt)
    (h₂ : lexNat b c ≠ .gt) : lexNat a c = .lt := by
  cases hac : lexNat a c with
  | lt => rfl
  | eq =>
    have hce := lexNat_eq _ _ hac
    subst hce
    have : lexNat b a = .gt := by rw [← lexNat_swap, h₁]; rfl
    exact absurd this h₂
  | gt =>
    have hca : lexNat c a = .lt := by rw [← lexNat_swap, hac]; rfl
    have hcb : lexNat c b ≠ .gt :=
      lexNat_le_trans _ _ _ (by rw [hca]; simp) (by rw [h₁]; simp)
    have hbc : lexNat b c ≠ .gt := h₂
    have : lexNat b c = .eq := by
      refine lexNat_ne_gt_swap hbc hcb
    have hbceq := lexNat_eq _ _ this
    subst hbceq
    rw [h₁] at hac
    exact absurd hac (by simp)

theorem localeCompareM_le_trans {a b c : String} (h₁ : localeCompareM a b ≠ .gt)
    (h₂ : localeCompareM b c ≠ .gt) : localeCompareM a c ≠ .gt := by
  unfold localeCompareM at h₁ h₂ ⊢
  cases hp₁ : lexNat (primarySeq a) (primarySeq b) with
  | gt => rw [hp₁] at h₁; simp [Ordering.then] at h₁
  | lt =>
    cases hp₂ : lexNat (primarySeq b) (primarySeq c) with
    | gt => rw [hp₂] at h₂; simp [Ordering.then] at h₂
    | lt =>
      have : lexNat (primarySeq a) (primarySeq c) = .lt :=
        lexNat_lt_of_lt_of_le hp₁ (by rw [hp₂]; simp)
      rw [this]; simp [Ordering.then]
    | eq =>
      have hbc := lexNat_eq _ _ hp₂
      have : lexNat (primarySeq a) (primarySeq c) = .lt := by rw [← hbc]; exact hp₁
      rw [this]; simp [Ordering.then]
  | eq =>
    have hab := lexNat_eq _ _ hp₁
    rw [hp₁] at h₁
    simp only [Ordering.then] at h₁
    cases hp₂ : lexNat (primarySeq b) (primarySeq c) with
    | gt => rw [hp₂] at h₂; simp [Ordering.then] at h₂
    | lt =>
      have : lexNat (primarySeq a) (primarySeq c) = .lt := by rw [hab]; exact hp₂
      rw [this]; simp [Ordering.then]
    | eq =>
      rw [hp₂] at h₂
      simp only [Ordering.then] at h₂
      have hac : lexNat (primarySeq a) (primarySeq c) = .eq := by
        rw [hab]; exact hp₂
      rw [hac]
      simp only [Ordering.then]
      have hcase : lexNat (caseSeq a) (caseSeq b) = lexNat (caseSeq a) (caseSeq b) := rfl
      exact lexNat_le_trans _ _ _ h₁ h₂

/-! ### `localeLe` is a total, transitive, antisymmetric Boolean order -/

theorem localeLe_iff {a b : String} : localeLe a b = true ↔ localeCompareM a b ≠ .gt := by
  unfold localeLe
  cases h : localeCompareM a b <;> simp

theorem localeLe_total (a b : String) : localeLe a b = true ∨ localeLe b a = true := by
  rw [localeLe_iff, localeLe_iff]
  cases h : localeCompareM a b with
  | gt =>
    right
    rw [← localeCompareM_swap, h]
    simp [Ordering.swap]
  | lt => left; simp
  | eq => left; simp

theorem localeLe_trans {a b c : String} (h₁ : localeLe a b = true)
    (h₂ : localeLe b c = true) : localeLe a c = true := by
  rw [localeLe_iff] at h₁ h₂ ⊢
  exact localeCompareM_le_trans h₁ h₂

theorem localeLe_antisymm {a b : String} (h₁ : localeLe a b = true)
    (h₂ : localeLe b a = true) : a = b := by
  rw [localeLe_iff] at h₁ h₂
  apply localeCompareM_eq
  cases h : localeCompareM a b with
  | eq => rfl
  | gt => exact absurd h h₁
  | lt =>
    have : localeCompareM b a = .gt := by rw [← localeCompareM_swap, h]; rfl
    exact absurd this h₂

/-! ### Correctness of the sorting model -/

theorem insortBy_perm (le : α → α → Bool) (a : α) :
    ∀ l : List α, List.Perm (insortBy le a l) (a :: l) := by
  intro l
  induction l with
  | nil => exact List.Perm.refl _
  | cons b bs ih =>
    simp only [insortBy]
    split
    · exact List.Perm.refl _
    · exact (ih.cons b).trans (List.Perm.swap a b bs)

theorem sortBy_perm (le : α → α → Bool) : ∀ l : List α, List.Perm (sortBy le l) l := by
  intro l
  induction l with
  | nil => exact List.Perm.refl _
  | cons a as ih => exact (insortBy_perm le a (sortBy le as)).trans (ih.cons a)

theorem insortBy_pairwise {le : α → α → Bool}
    (total : ∀ x y, le x y = true ∨ le y x = true)
    (htrans : ∀ x y z, le x y = true → le y z = true → le x z = true)
    (a : α) : ∀ {l : List α}, l.Pairwise (fun x y => le x y = true) →
    (insortBy le a l).Pairwise (fun x y => le x y = true) := by
  intro l
  induction l with
  | nil => intro _; simp [insortBy]
  | cons b bs ih =>
    intro hp
    rcases List.pairwise_cons.mp hp with ⟨hb, hbs⟩
    simp only [insortBy]
    split
    · rename_i hab
      refine List.pairwise_cons.mpr ⟨?_, hp⟩
      intro y hy
      rcases List.mem_cons.mp hy with rfl | hy
      · exact hab
      · exact htrans a b y hab (hb y hy)
    · rename_i hab
      have hba : le b a = true := by
        rcases total a b with h | h
        · exact absurd h hab
        · exact h
      refine List.pairwise_cons.mpr ⟨?_, ih hbs⟩
      intro y hy
      have hy' := (insortBy_perm le a bs).mem_iff.mp hy
      rcases List.mem_cons.mp hy' with rfl | hy'
      · exact hba
      · exact hb y hy'

theorem sortBy_pairwise {le : α → α → Bool}
    (total : ∀ x y, le x y = true ∨ le y x = true)
    (htrans : ∀ x y z, le x y = true → le y z = true → le x z = true) :
    ∀ l : List α, (sortBy le l).Pairwise (fun x y => le x y = true) := by
  intro l
  induction l with
  | nil => simp [sortBy]
  | cons a as ih => exact insortBy_pairwise total htrans a ih

theorem sortBy_eq_of_perm {le : α → α → Bool}
    (total : ∀ x y, le x y = true ∨ le y x = true)
    (htrans : ∀ x y z, le x y = true → le y z = true → le x z = true)
    (hanti : ∀ x y, le x y = true → le y x = true → x = y)
    {l₁ l₂ : List α} (h : List.Perm l₁ l₂) : sortBy le l₁ = sortBy le l₂ := by
  letI : IsAntisymm α (fun x y => le x y = true) := ⟨hanti⟩
  exact List.eq_of_perm_of_sorted
    ((sortBy_perm le l₁).trans (h.trans (sortBy_perm le l₂).symm))
    (sortBy_pairwise total htrans l₁)
    (sortBy_pairwise total htrans l₂)

/-- Sorting with the `localeCompare` comparator is permutation-invariant:
its ties arise only between equal strings. -/
theorem sortStrings_eq_of_perm {l₁ l₂ : List String} (h : List.Perm l₁ l₂) :
    sortBy localeLe l₁ = sortBy localeLe l₂ :=
  sortBy_eq_of_perm localeLe_total (fun _ _ _ => localeLe_trans)
    (fun _ _ => localeLe_antisymm) h

/-- The canonical payload is invariant under reordering of body fields. -/
theorem canonicalPayload_eq_of_perm {body₁ body₂ : List (String × JSVal)}
    (h : List.Perm body₁ body₂) : canonicalPayload body₁ = canonicalPayload body₂ := by
  unfold canonicalPayload canonicalParams dissocSign
  rw [sortStrings_eq_of_perm ((h.filter _).map _)]

/-! ### `assoc` under permutation -/

theorem assoc_eq_none_iff (k : String) :
    ∀ l : List (String × α), assoc k l = none ↔ k ∉ l.map Prod.fst := by
  intro l
  induction l with
  | nil => simp [assoc]
  | cons kv rest ih =>
    obtain ⟨k', v⟩ := kv
    simp only [assoc, List.map_cons, List.mem_cons]
    split
    · rename_i he; simp [he.symm]
    · rename_i he
      simp only [ih]
      constructor
      · intro h hc
        rcases hc with hc | hc
        · exact he hc.symm
        · exact h hc
      · intro h hc; exact h (Or.inr hc)

theorem assoc_eq_some_mem {k : String} :
    ∀ {l : List (String × α)} {v : α}, assoc k l = some v → (k, v) ∈ l := by
  intro l
  induction l with
  | nil => intro v h; simp [assoc] at h
  | cons kv rest ih =>
    intro v h
    obtain ⟨k', w⟩ := kv
    simp only [assoc] at h
    split at h
    · rename_i he
      injection h with h
      exact List.mem_cons.mpr (Or.inl (by rw [he, h]))
    · exact List.mem_cons.mpr (Or.inr (ih h))

theorem mem_assoc_of_nodup {k : String} {v : α} :
    ∀ {l : List (String × α)}, (l.map Prod.fst).Nodup → (k, v) ∈ l →
    assoc k l = some v := by
  intro l
  induction l with
  | nil => intro _ h; simp at h
  | cons kv rest ih =>
    intro hnd hm
    obtain ⟨k', w⟩ := kv
    simp only [List.map_cons, List.nodup_cons] at hnd
    rcases List.mem_cons.mp hm with he | hm'
    · cases he
      simp [assoc]
    · have hk : k' ≠ k := by
        intro he
        subst he
        exact hnd.1 (List.mem_map.mpr ⟨(k', v), hm', rfl⟩)
      simp only [assoc, if_neg hk]
      exact ih hnd.2 hm'

theorem assoc_eq_of_perm {l₁ l₂ : List (String × α)} (h : List.Perm l₁ l₂)
    (hnd : (l₁.map Prod.fst).Nodup) (k : String) : assoc k l₁ = assoc k l₂ := by
  have hnd₂ : (l₂.map Prod.fst).Nodup := (h.map Prod.fst).nodup_iff.mp hnd
  cases hc : assoc k l₁ with
  | none =>
    have := (assoc_eq_none_iff k l₁).mp hc
    have : k ∉ l₂.map Prod.fst := fun hm =>
      this ((h.map Prod.fst).mem_iff.mpr hm)
    exact ((assoc_eq_none_iff k l₂).mpr this).symm
  | some v =>
    have := assoc_eq_some_mem hc
    exact (mem_assoc_of_nodup hnd₂ (h.mem_iff.mp this)).symm

/-! ## Claims -/


set_option maxRecDepth 100000

/-! ### Helper lemmas -/

theorem assoc_append_self {k : String} {v : α} :
    ∀ {l : List (String × α)}, assoc k l = none → assoc k (l ++ [(k, v)]) = some v := by
  intro l
  induction l with
  | nil => intro _; simp [assoc]
  | cons kv rest ih =>
    intro h
    obtain ⟨k', w⟩ := kv
    by_cases hk : k' = k
    · exfalso; simp [assoc, hk] at h
    · simp only [List.cons_append, assoc, if_neg hk] at h ⊢
      exact ih h

/-! ### C10 -/

/-- C10: after the signature gate, the POST pipeline checks `id`, then
`arguments`, then `timestamp`, then the schema validator, then the method
registry, in that order, each rejection short-circuiting the rest; a 406
fires for a rejecting validator even when the method is unregistered, and
405 only after every earlier check passed. -/
theorem post_check_order (V : List (String × Validator)) (M : List (String × Handler))
    (meth : String) (body : List (String × JSVal)) :
    (coerceId body = none → handlePost V M meth body = missingIdResp) ∧
    (∀ id, coerceId body = some id → coerceArgs body = none →
      handlePost V M meth body = missingArgumentsResp) ∧
    (∀ id args, coerceId body = some id → coerceArgs body = some args →
      coerceTimestamp body = none → handlePost V M meth body = missingTimestampResp) ∧
    (∀ id args ts errs, coerceId body = some id → coerceArgs body = some args →
      coerceTimestamp body = some ts →
      validatorCheck V ⟨id, meth, args, ts⟩ = some errs →
      handlePost V M meth body =
        .err 406 406 "Not Acceptable" (String.intercalate "\n" (errs.map formatVErr))) ∧
    (∀ id args ts, coerceId body = some id → coerceArgs body = some args →
      coerceTimestamp body = some ts →
      validatorCheck V ⟨id, meth, args, ts⟩ = none → assoc meth M = none →
      handlePost V M meth body = methodNotAllowedResp) := by
  refine ⟨?_, ?_, ?_, ?_, ?_⟩ <;> intros <;>
    simp_all [handlePost, afterTimestamp, dispatch]

/-- C10 witness. -/
theorem post_check_order_witness :
    handlePost [] [] "m" [("id", .int 1), ("arguments", .arr []),
      ("timestamp", .int 0)] = methodNotAllowedResp :=
  (post_check_order [] [] "m" _).2.2.2.2 "1" [] 0 rfl rfl rfl rfl rfl

/-! ### C8 -/

/-- C8: a numeric `id` is normalized to its decimal string, a string `id`
passes through, any other or absent `id` is rejected with 400
"Missing ID" before any handler is invoked. -/
theorem id_normalization (V : List (String × Validator)) (M : List (String × Handler))
    (meth : String) (body : List (String × JSVal)) :
    (∀ n : Int, assoc "id" body = some (.int n) → coerceId body = some (toString n)) ∧
    (∀ s, assoc "id" body = some (.str s) → coerceId body = some s) ∧
    (assoc "id" body = none → handlePost V M meth body = missingIdResp) ∧
    (∀ v, assoc "id" body = some v → (∀ n : Int, v ≠ .int n) → (∀ s, v ≠ .str s) →
      handlePost V M meth body = missingIdResp) := by
  refine ⟨?_, ?_, ?_, ?_⟩
  · intro n h; simp [coerceId, h]
  · intro s h; simp [coerceId, h]
  · intro h
    have : coerceId body = none := by simp [coerceId, h]
    simp [handlePost, this]
  · intro v h hn hs
    have : coerceId body = none := by
      cases v with
      | int n => exact absurd rfl (hn n)
      | str s => exact absurd rfl (hs s)
      | _ => simp [coerceId, h]
    simp [handlePost, this]

/-- C8 witness. -/
theorem id_normalization_witness :
    coerceId [("id", .int 42)] = some "42" ∧
    coerceId [("id", .str "x7")] = some "x7" ∧
    handlePost [] [] "m" [("id", .bool true)] = missingIdResp :=
  ⟨(id_normalization [] [] "m" _).1 42 rfl,
   (id_normalization [] [] "m" _).2.1 "x7" rfl,
   (id_normalization [] [] "m" _).2.2.2 (.bool true) rfl
     (fun n h => by cases h) (fun s h => by cases h)⟩

/-! ### C9 -/

/-- C9: a numeric `timestamp` is accepted directly, a string `timestamp`
goes through `parseInt`, and an absent, non-parsing, or otherwise-typed
`timestamp` is rejected with 400 "Missing Timestamp" (after the id and
arguments checks passed). -/
theorem timestamp_coercion (V : List (String × Validator)) (M : List (String × Handler))
    (meth : String) (body : List (String × JSVal)) :
    (∀ n : Int, assoc "timestamp" body = some (.int n) → coerceTimestamp body = some n) ∧
    (∀ s, assoc "timestamp" body = some (.str s) → coerceTimestamp body = parseIntJS s) ∧
    (assoc "timestamp" body = none → coerceTimestamp body = none) ∧
    (∀ v, assoc "timestamp" body = some v → (∀ n : Int, v ≠ .int n) →
      (∀ s, v ≠ .str s) → coerceTimestamp body = none) ∧
    (∀ id args, coerceId body = some id → coerceArgs body = some args →
      coerceTimestamp body = none → handlePost V M meth body = missingTimestampResp) ∧
    (∀ id args n, coerceId body = some id → coerceArgs body = some args →
      assoc "timestamp" body = some (.int n) →
      handlePost V M meth body = afterTimestamp V M meth id args n) := by
  refine ⟨?_, ?_, ?_, ?_, ?_, ?_⟩
  · intro n h; simp [coerceTimestamp, h]
  · intro s h; simp [coerceTimestamp, h]
  · intro h; simp [coerceTimestamp, h]
  · intro v h hn hs
    cases v with
    | int n => exact absurd rfl (hn n)
    | str s => exact absurd rfl (hs s)
    | _ => simp [coerceTimestamp, h]
  · intro id args hid hargs hts
    simp [handlePost, hid, hargs, hts]
  · intro id args n hid hargs h
    have : coerceTimestamp body = some n := by simp [coerceTimestamp, h]
    simp [handlePost, hid, hargs, this]

/-- C9 witness. -/
theorem timestamp_coercion_witness :
    coerceTimestamp [("timestamp", .int 9)] = some 9 ∧
    coerceTimestamp [("timestamp", .str "60001")] = parseIntJS "60001" ∧
    handlePost [] [] "m" [("id", .int 1), ("arguments", .arr []),
      ("timestamp", .str "zz")] = missingTimestampResp :=
  ⟨(timestamp_coercion [] [] "m" _).1 9 rfl,
   (timestamp_coercion [] [] "m" _).2.1 "60001" rfl,
   (timestamp_coercion [] [] "m" _).2.2.2.2.1 "1" [] rfl rfl rfl⟩

/-! ### C7 -/

/-- C7: registering a taken name fails with `DuplicateMethod` at
registration time; a fresh name is stored and found by lookup; lookup
failure at request time yields the 405 response. -/
theorem method_registry (M : List (String × Handler)) (meth : String)
    (func : List JSVal → HandlerResult) :
    ((assoc meth M).isSome → onRegister M meth func =
      .error (DuplicateMethod, meth ++ " method already registered")) ∧
    (assoc meth M = none →
      onRegister M meth func = .ok (M ++ [(meth, wrapHandler func)]) ∧
      assoc meth (M ++ [(meth, wrapHandler func)]) = some (wrapHandler func)) ∧
    (∀ V body id args ts, assoc meth M = none →
      coerceId body = some id → coerceArgs body = some args →
      coerceTimestamp body = some ts → validatorCheck V ⟨id, meth, args, ts⟩ = none →
      handlePost V M meth body = methodNotAllowedResp) := by
  refine ⟨?_, ?_, ?_⟩
  · intro h; simp [onRegister, h]
  · intro h
    refine ⟨by simp [onRegister, h], assoc_append_self h⟩
  · intro V body id args ts hm hid hargs hts hval
    simp [handlePost, hid, hargs, hts, afterTimestamp, hval, dispatch, hm]

/-- C7 witness. -/
theorem method_registry_witness :
    onRegister [("add", wrapHandler fun _ => .val .null)] "add" (fun _ => .val .null) =
      .error (DuplicateMethod, "add method already registered") ∧
    onRegister [] "add" (fun _ => .val .null) =
      .ok [("add", wrapHandler fun _ => .val .null)] ∧
    handlePost [] [] "add" [("id", .int 1), ("arguments", .arr []),
      ("timestamp", .int 0)] = methodNotAllowedResp :=
  ⟨(method_registry [("add", wrapHandler fun _ => .val .null)] "add"
      (fun _ => .val .null)).1 rfl,
   ((method_registry [] "add" (fun _ => .val .null)).2.1 rfl).1,
   (method_registry [] "add" (fun _ => .val .null)).2.2 []
     [("id", .int 1), ("arguments", .arr []), ("timestamp", .int 0)]
     "1" [] 0 rfl rfl rfl rfl rfl⟩

/-! ### C5 -/

/-- C5: a dispatched handler returning a value (directly or through a
resolved promise) produces the 200 success envelope carrying code 0, the
normalized id and the value; a handler throwing (directly or through a
rejected promise) produces the 417/417 error envelope whose message is the
thrown string, an `Error`'s message, or the string form of the value. -/
theorem dispatch_outcomes (V : List (String × Validator)) (M : List (String × Handler))
    (meth : String) (body : List (String × JSVal)) (id : String) (args : List JSVal)
    (ts : Int) (f : Handler) (hid : coerceId body = some id)
    (hargs : coerceArgs body = some args) (hts : coerceTimestamp body = some ts)
    (hval : validatorCheck V ⟨id, meth, args, ts⟩ = none)
    (hm : assoc meth M = some f) :
    (∀ v, f ⟨id, meth, args, ts⟩ = .val v ∨ f ⟨id, meth, args, ts⟩ = .promise (.resolved v) →
      handlePost V M meth body = .ok 200 200 (createNanoReply id 0 "OK" v)) ∧
    (∀ e, f ⟨id, meth, args, ts⟩ = .raise e ∨ f ⟨id, meth, args, ts⟩ = .promise (.rejected e) →
      handlePost V M meth body = expectationFailedResp (errMessage e)) ∧
    (∀ s, errMessage (.str s) = s) ∧
    (∀ m, errMessage (.errObj m) = m) ∧
    (∀ t, errMessage (.other t) = t) := by
  refine ⟨?_, ?_, fun _ => rfl, fun _ => rfl, fun _ => rfl⟩
  · intro v hv
    rcases hv with hv | hv <;>
      simp [handlePost, hid, hargs, hts, afterTimestamp, hval, dispatch, hm, runHandler, hv]
  · intro e he
    rcases he with he | he <;>
      simp [handlePost, hid, hargs, hts, afterTimestamp, hval, dispatch, hm, runHandler, he,
        expectationFailedResp]

/-- C5 witness: a handler returning 5 yields the success envelope; a
handler throwing the plain string "boom" yields 417 with message "boom". -/
theorem dispatch_outcomes_witness :
    handlePost [] [("add", fun _ => .val (.int 5))] "add"
      [("id", .int 1), ("arguments", .arr []), ("timestamp", .int 0)] =
      .ok 200 200 (createNanoReply "1" 0 "OK" (.int 5)) ∧
    handlePost [] [("kaboom", fun _ => .raise (.str "boom"))] "kaboom"
      [("id", .int 1), ("arguments", .arr []), ("timestamp", .int 0)] =
      expectationFailedResp "boom" :=
  ⟨(dispatch_outcomes [] [("add", fun _ => .val (.int 5))] "add"
      [("id", .int 1), ("arguments", .arr []), ("timestamp", .int 0)] "1" [] 0
      (fun _ => .val (.int 5)) rfl rfl rfl rfl rfl).1 (.int 5) (Or.inl rfl),
   (dispatch_outcomes [] [("kaboom", fun _ => .raise (.str "boom"))] "kaboom"
      [("id", .int 1), ("arguments", .arr []), ("timestamp", .int 0)] "1" [] 0
      (fun _ => .raise (.str "boom")) rfl rfl rfl rfl rfl).2.1 (.str "boom")
     (Or.inl rfl)⟩

/-! ### C3 -/

/-- C3: on every route, a missing or non-string `sign` yields 400
"Missing Signature" and a mismatched signature yields 400
"Check Signature Failed", regardless of registered validators, methods, or
any other body field. -/
theorem signature_gate (secret : String) (V : List (String × Validator))
    (M : List (String × Handler)) (route : Route) (body : List (String × JSVal)) :
    (extractSign body = none → serve secret V M route body = missingSignatureResp) ∧
    (∀ s, extractSign body = some s → expectedSignature secret body ≠ s →
      serve secret V M route body = checkSignatureFailedResp) := by
  constructor
  · intro h; simp [serve, verifyGate, h]
  · intro s h hne; simp [serve, verifyGate, h, hne]

/-- C3 witness. -/
theorem signature_gate_witness :
    serve "secret" [] [] (.postNanorpcs "add") [("id", .int 1)] = missingSignatureResp ∧
    serve "secret" [] [] .other [("sign", .str "nope")] = checkSignatureFailedResp :=
  ⟨(signature_gate "secret" [] [] (.postNanorpcs "add") _).1 rfl,
   (signature_gate "secret" [] [] .other _).2 "nope" rfl (by decide)⟩

/-! ### C1 -/

/-- C1 as stated is false: the middleware sorts the serialized pairs with
the locale-aware `localeCompare` comparator, not plain string comparison.
With fields `B` and `a`, plain comparison orders `"B=2" < "a=1"` while
`localeCompare` orders `"a=1" < "B=2"`; supplying the signature computed
from the plainly-sorted payload, as the claim prescribes, is rejected. -/
theorem canonicalization_counterexample :
    specExpectedSignature "secret" [("B", .str "2"), ("a", .str "1"),
      ("sign", .str (specExpectedSignature "secret" [("B", .str "2"), ("a", .str "1")]))] =
      specExpectedSignature "secret" [("B", .str "2"), ("a", .str "1")] ∧
    specExpectedSignature "secret" [("B", .str "2"), ("a", .str "1")] ≠
      expectedSignature "secret" [("B", .str "2"), ("a", .str "1")] ∧
    verifyGate "secret" [("B", .str "2"), ("a", .str "1"),
      ("sign", .str (specExpectedSignature "secret" [("B", .str "2"), ("a", .str "1")]))] =
      some checkSignatureFailedResp :=
  ⟨rfl, by decide, rfl⟩

/-- C1 amended: the expected signature is the hex HMAC-SHA256, keyed by the
secret, of the `localeCompare`-sorted newline-joined serialized pairs of
all fields but `sign`, followed by a newline and the secret; the middleware
passes the request exactly when the supplied `sign` is that string. -/
theorem signature_characterization (secret : String) (body : List (String × JSVal)) :
    verifyGate secret body = none ↔
      extractSign body = some (expectedSignature secret body) := by
  unfold verifyGate
  cases h : extractSign body with
  | none => simp
  | some s =>
    by_cases he : expectedSignature secret body = s
    · subst he; simp
    · simp [he, Ne.symm he]

/-! ### C6 -/

/-- C6: the canonical payload, and with it the whole signature-verification
outcome, is invariant under permutation of the body's fields. -/
theorem payload_order_invariance (secret : String)
    (body₁ body₂ : List (String × JSVal)) (hperm : List.Perm body₁ body₂)
    (hnd : (body₁.map Prod.fst).Nodup) :
    canonicalPayload body₁ = canonicalPayload body₂ ∧
    verifyGate secret body₁ = verifyGate secret body₂ := by
  have hp := canonicalPayload_eq_of_perm hperm
  refine ⟨hp, ?_⟩
  unfold verifyGate extractSign expectedSignature
  rw [assoc_eq_of_perm hperm hnd "sign", hp]

/-- C6 witness. -/
theorem payload_order_invariance_witness :
    canonicalPayload [("a", .int 1), ("b", .int 2)] =
      canonicalPayload [("b", .int 2), ("a", .int 1)] ∧
    verifyGate "s" [("a", .int 1), ("b", .int 2)] =
      verifyGate "s" [("b", .int 2), ("a", .int 1)] :=
  payload_order_invariance "s" _ _ (List.Perm.swap _ _ _) (by simp)

/-! ### C4 -/

/-- C4 as stated is false: error replies carry no id at all.  A handler
failure echoes no id (the claim requires the normalized inbound id `"42"`),
and an unparseable id yields the Missing-ID error with no id either (the
claim requires an empty-string id). -/
theorem reply_id_counterexample :
    coerceId [("id", .int 42), ("arguments", .arr []), ("timestamp", .int 0)] =
      some "42" ∧
    replyId (handlePost [] [("m", fun _ => .raise (.str "x"))] "m"
      [("id", .int 42), ("arguments", .arr []), ("timestamp", .int 0)]) = none ∧
    replyId (handlePost [] [] "m" [("arguments", .arr []), ("timestamp", .int 0)]) =
      none :=
  ⟨rfl, rfl, rfl⟩

/-- C4 amended: success replies embed the normalized inbound id in their
`data` envelope; every error reply (including the one for an unparseable
id) carries no id field at all. -/
theorem reply_id_amended (secret : String) (V : List (String × Validator))
    (M : List (String × Handler)) (route : Route) (body : List (String × JSVal)) :
    (∀ st c r, serve secret V M route body = .ok st c r → coerceId body = some r.id) ∧
    (∀ st c n m, serve secret V M route body = .err st c n m →
      replyId (serve secret V M route body) = none) := by
  constructor
  · intro st c r h
    simp only [serve] at h
    split at h
    · rename_i resp hg
      simp only [verifyGate] at hg
      split at hg
      · cases hg; cases h
      · split at hg
        · cases hg
        · cases hg; cases h
    · split at h
      · rename_i meth
        simp only [handlePost] at h
        split at h
        · cases h
        · rename_i id hid
          split at h
          · cases h
          · split at h
            · cases h
            · simp only [afterTimestamp] at h
              split at h
              · cases h
              · simp only [dispatch] at h
                split at h
                · cases h
                · split at h
                  · rename_i v hrun
                    cases h
                    exact hid
                  · cases h
      · cases h
  · intro st c n m h
    rw [h]
    rfl

/-- C4 amended, witness. -/
theorem reply_id_amended_witness :
    coerceId [("id", .int 7), ("arguments", .arr []), ("timestamp", .int 0),
      ("sign", .str (expectedSignature "k" [("id", .int 7), ("arguments", .arr []),
        ("timestamp", .int 0)]))] = some "7" :=
  (reply_id_amended "k" [] [("m", fun _ => .val .null)] (.postNanorpcs "m") _).1
    200 200 (createNanoReply "7" 0 "OK" .null) rfl

/-! ### C2 (spec-modelled freshness gate) -/

/-- C2: in the spec-modelled `createExpress` pipeline, once the envelope
fields parse, a timestamp farther than 60000 ms from the server's clock is
rejected with the 425 stale-timestamp response before any validator or
handler runs, while a distance of exactly 60000 ms proceeds exactly like
the pipeline without the freshness gate. -/
theorem freshness_window (now : Int) (V : List (String × Validator))
    (M : List (String × Handler)) (meth : String) (body : List (String × JSVal))
    (id : String) (args : List JSVal) (ts : Int) (hid : coerceId body = some id)
    (hargs : coerceArgs body = some args) (hts : coerceTimestamp body = some ts) :
    ((now - ts).natAbs > 60000 → handlePostFresh now V M meth body = staleTimestampResp) ∧
    ((now - ts).natAbs ≤ 60000 →
      handlePostFresh now V M meth body = handlePost V M meth body) := by
  constructor
  · intro h
    simp [handlePostFresh, hid, hargs, hts, h]
  · intro h
    simp [handlePostFresh, handlePost, hid, hargs, hts, Nat.not_lt.mpr h]

/-- C2 witness: at distance 60001 the request is rejected 425; at exactly
60000 it proceeds identically to the gate-free pipeline. -/
theorem freshness_window_witness :
    handlePostFresh 60001 [] [] "m" [("id", .int 1), ("arguments", .arr []),
      ("timestamp", .int 0)] = staleTimestampResp ∧
    handlePostFresh 60000 [] [] "m" [("id", .int 1), ("arguments", .arr []),
      ("timestamp", .int 0)] =
      handlePost [] [] "m" [("id", .int 1), ("arguments", .arr []),
        ("timestamp", .int 0)] :=
  ⟨(freshness_window 60001 [] [] "m" [("id", .int 1), ("arguments", .arr []),
      ("timestamp", .int 0)] "1" [] 0 rfl rfl rfl).1 (by decide),
   (freshness_window 60000 [] [] "m" [("id", .int 1), ("arguments", .arr []),
      ("timestamp", .int 0)] "1" [] 0 rfl rfl rfl).2 (by decide)⟩

end NanoRPC
